import Mathlib

/-!
# Verification of the log-compactor core (`log_compactor_Version4.py`)

A shallow embedding of the compactor pipeline: line parsing, field
normalization, grouping, greedy time-windowing, escalation and the final
ordering.  Python `datetime` values are embedded as a count of seconds on the
proleptic Gregorian timeline together with an optional UTC offset; `dict`s
are embedded as insertion-ordered association lists with unique keys
(insertion replaces in place, as CPython dicts do).  Strings are modelled
over their character lists; character classes (`isupper`, whitespace,
digits) follow CPython's behaviour on ASCII text, which is the shape of
every log line the format admits.
-/

namespace LogCompactor

/-- Whitespace, as used by `str.strip()` / `str.split()` (ASCII model). -/
def pyIsSpace (c : Char) : Bool := c.isWhitespace

/-- Embeds `line.strip()`: drop whitespace from both ends. -/
def pyStrip (s : String) : String :=
  ⟨((s.data.dropWhile pyIsSpace).reverse.dropWhile pyIsSpace).reverse⟩

/-- Worker for `str.split()`: split on runs of whitespace, dropping empties;
`acc` holds the (reversed) characters of the token being built. -/
def splitWsAux : List Char → List Char → List String
  | [], acc => if acc.isEmpty then [] else [⟨acc.reverse⟩]
  | c :: cs, acc =>
    if pyIsSpace c then
      if acc.isEmpty then splitWsAux cs []
      else ⟨acc.reverse⟩ :: splitWsAux cs []
    else splitWsAux cs (c :: acc)

/-- Embeds `line.split()` (no separator argument). -/
def pySplit (s : String) : List String := splitWsAux s.data []

/-- Embeds `str.isupper()` on ASCII text: at least one cased character, and
every cased character is uppercase.  Uncased characters (digits,
punctuation) are ignored by the test. -/
def pyIsUpper (s : String) : Bool :=
  s.data.any (fun c => c.isAlpha) && s.data.all (fun c => !c.isAlpha || c.isUpper)

/-- The level test of `compact_logs` line 119: `not level or not
level.isupper()` discards; this is the kept side. -/
def levelOk (level : String) : Bool := !(level == "") && pyIsUpper level

/-- Embeds `'=' in part` followed by `part.split('=', 1)`: `none` when there
is no `=`, otherwise the pieces before and after the first `=`. -/
def splitEq1 (s : String) : Option (String × String) :=
  match s.data.dropWhile (fun c => c ≠ '=') with
  | [] => none
  | _ :: post => some (⟨s.data.takeWhile (fun c => c ≠ '=')⟩, ⟨post⟩)

/-- A CPython `dict[str, str]`: insertion-ordered association list with
unique keys. -/
abbrev Dict := List (String × String)

/-- Embeds `d[k] = v`: replace the value in place if `k` is present,
otherwise append the pair at the end. -/
def dictInsert : Dict → String → String → Dict
  | [], k, v => [(k, v)]
  | (k', v') :: d, k, v =>
    if k' = k then (k, v) :: d else (k', v') :: dictInsert d k v

/-- Embeds `d.get(k)`. -/
def dictGet (d : Dict) (k : String) : Option String :=
  (d.find? (fun p => p.1 == k)).map (fun p => p.2)

/-- Worker for `parse_fields`, accumulating the dict being built. -/
def parse_fields_go : List String → Dict → Option Dict
  | [], acc => some acc
  | p :: ps, acc =>
    match splitEq1 p with
    | none => none
    | some (k, v) => parse_fields_go ps (dictInsert acc k v)

/-- Embeds `parse_fields`: every token must contain `=`; later duplicate
keys overwrite earlier ones. -/
def parse_fields (parts : List String) : Option Dict := parse_fields_go parts []

/-- Embeds `normalize_user_field`: conflicting `user`/`user_id` values kill
the record; otherwise `user_id` is folded into the canonical `user` key. -/
def normalize_user_field (fields : Dict) : Option Dict :=
  match dictGet fields "user_id" with
  | none => some fields
  | some uid =>
    match dictGet fields "user" with
    | some u =>
      if u ≠ uid then none
      else some (dictInsert (fields.filter (fun p => p.1 ≠ "user_id")) "user" uid)
    | none => some (dictInsert (fields.filter (fun p => p.1 ≠ "user_id")) "user" uid)

/-- Digit run to a number; `none` on an empty or non-digit run. -/
def digitsToNat (cs : List Char) : Option Nat :=
  if cs.isEmpty then none
  else if cs.all (fun c => c.isDigit) then
    some (cs.foldl (fun n c => n * 10 + (c.toNat - 48)) 0)
  else none

/-- Embeds `int(s)` on the inputs the compactor meets: optional surrounding
whitespace, optional sign, then a non-empty digit run (CPython's underscore
separators are not modelled; no claim exercises them). -/
def pyInt (s : String) : Option Int :=
  match (pyStrip s).data with
  | '+' :: cs => (digitsToNat cs).map (fun n => (n : Int))
  | '-' :: cs => (digitsToNat cs).map (fun n => -(n : Int))
  | cs => (digitsToNat cs).map (fun n => (n : Int))

/-- Embeds `apply_code_override`: a `code` field parsing to an integer in
[500, 599] forces the level to `ERROR`. -/
def apply_code_override (level : String) (fields : Dict) : String :=
  match dictGet fields "code" with
  | none => level
  | some cstr =>
    match pyInt cstr with
    | none => level
    | some code => if 500 ≤ code ∧ code ≤ 599 then "ERROR" else level

/-- Gregorian leap-year rule. -/
def isLeap (y : Int) : Bool := y % 4 == 0 && (y % 100 != 0 || y % 400 == 0)

/-- Length of month `m` of year `y`. -/
def daysInMonth (y m : Int) : Int :=
  if m == 2 then (if isLeap y then 29 else 28)
  else if m == 4 || m == 6 || m == 9 || m == 11 then 30
  else 31

/-- Days between a proleptic-Gregorian civil date and 1970-01-01 (the civil
day-count algorithm; all divisions meet non-negative operands for the years
`fromisoformat` admits). -/
def daysFromCivil (y m d : Int) : Int :=
  let y2 := if m ≤ 2 then y - 1 else y
  let era := (if 0 ≤ y2 then y2 else y2 - 399) / 400
  let yoe := y2 - era * 400
  let mp := (m + 9) % 12
  let doy := (153 * mp + 2) / 5 + d - 1
  let doe := yoe * 365 + yoe / 4 - yoe / 100 + doy
  era * 146097 + doe - 719468

/-- A Python `datetime`: naive seconds on the proleptic Gregorian timeline,
plus the UTC offset in seconds when the value is timezone-aware. -/
structure PyDateTime where
  secs : Int
  offset : Option Int
deriving DecidableEq

/-- Two-digit number. -/
def d2 (a b : Char) : Option Nat :=
  if a.isDigit && b.isDigit then some ((a.toNat - 48) * 10 + (b.toNat - 48)) else none

/-- Four-digit number. -/
def d4 (a b c d : Char) : Option Nat :=
  if a.isDigit && b.isDigit && c.isDigit && d.isDigit then
    some ((((a.toNat - 48) * 10 + (b.toNat - 48)) * 10 + (c.toNat - 48)) * 10 + (d.toNat - 48))
  else none

/-- Time-of-day part `HH:MM` or `HH:MM:SS`, range-checked. -/
def parseHMS : List Char → Option (Nat × Nat × Nat)
  | [h1, h2, ':', m1, m2] => do
    let h ← d2 h1 h2
    let m ← d2 m1 m2
    if h ≤ 23 && m ≤ 59 then some (h, m, 0) else none
  | [h1, h2, ':', m1, m2, ':', s1, s2] => do
    let h ← d2 h1 h2
    let m ← d2 m1 m2
    let s ← d2 s1 s2
    if h ≤ 23 && m ≤ 59 && s ≤ 59 then some (h, m, s) else none
  | _ => none

/-- UTC-offset magnitude after the sign: `HH:MM`, range-checked. -/
def parseOffsetTail : List Char → Option Int
  | [h1, h2, ':', m1, m2] => do
    let h ← d2 h1 h2
    let m ← d2 m1 m2
    if h ≤ 23 && m ≤ 59 then some ((h : Int) * 3600 + (m : Int) * 60) else none
  | _ => none

/-- The characters after the date separator: time-of-day and an optional
signed UTC offset. -/
def parseTimeOffset (cs : List Char) : Option ((Nat × Nat × Nat) × Option Int) := do
  let hms ← parseHMS (cs.takeWhile (fun c => c ≠ '+' && c ≠ '-'))
  match cs.dropWhile (fun c => c ≠ '+' && c ≠ '-') with
  | [] => some (hms, none)
  | '+' :: os => do
    let o ← parseOffsetTail os
    some (hms, some o)
  | '-' :: os => do
    let o ← parseOffsetTail os
    some (hms, some (-o))
  | _ => none

/-- Validated civil date to seconds. -/
def dateToSecs (y mo dd : Nat) : Option Int :=
  if 1 ≤ y && y ≤ 9999 && 1 ≤ mo && mo ≤ 12 && 1 ≤ dd &&
      (dd : Int) ≤ daysInMonth (y : Int) (mo : Int) then
    some (daysFromCivil (y : Int) (mo : Int) (dd : Int) * 86400)
  else none

/-- Embeds `parse_timestamp`, i.e. CPython `datetime.fromisoformat`,
restricted to the grammar `YYYY-MM-DD[<sep>HH:MM[:SS][(+|-)HH:MM]]` with any
single separator character — the portion of `fromisoformat`'s language that
is stable across CPython versions (fractional seconds, basic formats and the
`Z` suffix are outside the modelled subset; no claim exercises them).  Note
that `fromisoformat` accepts a bare date (time defaults to midnight) and a
UTC offset (the result is then timezone-aware); the surrounding code never
rejects either. -/
def parse_timestamp (s : String) : Option PyDateTime :=
  match s.data with
  | [y1, y2, y3, y4, '-', a1, a2, '-', b1, b2] => do
    let y ← d4 y1 y2 y3 y4
    let mo ← d2 a1 a2
    let dd ← d2 b1 b2
    let ds ← dateToSecs y mo dd
    some ⟨ds, none⟩
  | y1 :: y2 :: y3 :: y4 :: '-' :: a1 :: a2 :: '-' :: b1 :: b2 :: _sep :: rest => do
    let y ← d4 y1 y2 y3 y4
    let mo ← d2 a1 a2
    let dd ← d2 b1 b2
    let ds ← dateToSecs y mo dd
    let tp ← parseTimeOffset rest
    some ⟨ds + (tp.1.1 : Int) * 3600 + (tp.1.2.1 : Int) * 60 + (tp.1.2.2 : Int), tp.2⟩
  | _ => none

/-- A record as appended to `logs` (line 132), before sequence numbering:
timestamp, level after the code override, normalized fields. -/
structure PRec where
  dt : PyDateTime
  level : String
  fields : Dict
deriving DecidableEq

/-- The token-level part of the reading loop (lines 108-131): fewer than
two tokens, timestamp failure, level failure, field failure or a
normalization conflict each `continue` (= `none`); otherwise the record is
built with the code override applied. -/
def parse_parts : List String → Option PRec
  | ts_str :: level :: rest => do
    let ts ← parse_timestamp ts_str
    if levelOk level then do
      let fields ← parse_fields rest
      let nfields ← normalize_user_field fields
      some ⟨ts, apply_code_override level nfields, nfields⟩
    else none
  | _ => none

/-- Embeds the per-line body of the reading loop (lines 104-131): strip,
split on whitespace, then the token-level checks; every `continue` is
`none`. -/
def parse_line (rawLine : String) : Option PRec :=
  let line := pyStrip rawLine
  if line == "" then none else parse_parts (pySplit line)

/-- Embeds the reading loop's accumulation: surviving records paired with
`line_idx`, which counts only survivors. -/
def collect_logs : List String → Nat → List (PRec × Nat)
  | [], _ => []
  | l :: ls, i =>
    match parse_line l with
    | none => collect_logs ls i
    | some r => (r, i) :: collect_logs ls (i + 1)

/-- The timeline key a `datetime` is compared by: naive values by their
naive seconds, aware values by their UTC instant.  (CPython raises
`TypeError` on a naive/aware mixed comparison; pipeline-level theorems that
quantify over whole inputs therefore carry an all-naive hypothesis.) -/
def tsVal (dt : PyDateTime) : Int := dt.secs - dt.offset.getD 0

/-- A record as the grouping/windowing stage sees it. -/
structure Rec where
  ts : Int
  level : String
  fields : Dict
  idx : Nat
deriving DecidableEq

def toRec (p : PRec × Nat) : Rec := ⟨tsVal p.1.dt, p.1.level, p.1.fields, p.2⟩

/-- Python tuple comparison `(k1, v1) <= (k2, v2)` on string pairs. -/
def pairLE (p q : String × String) : Bool :=
  decide (p.1 < q.1) || (p.1 == q.1 && decide (p.2 ≤ q.2))

/-- The grouping key: level plus `sorted(fields.items())` (line 63-66). -/
abbrev GKey := String × Dict

def make_group_key (level : String) (fields : Dict) : GKey :=
  (level, fields.mergeSort pairLE)

/-- Embeds `groups[group_key].append(record)` on a `defaultdict(list)`:
append to the entry with this key, or add a new key at the end (CPython
dicts iterate in key-insertion order). -/
def addToGroups : List (GKey × List Rec) → GKey → Rec → List (GKey × List Rec)
  | [], k, r => [(k, [r])]
  | (k', rs) :: gs, k, r =>
    if k' = k then (k', rs ++ [r]) :: gs
    else (k', rs) :: addToGroups gs k r

/-- The grouping pass (lines 137-141). -/
def buildGroups (logs : List Rec) : List (GKey × List Rec) :=
  logs.foldl (fun gs r => addToGroups gs (make_group_key r.level r.fields) r) []

/-- The windowing walk over one group (lines 148-157), single pass: `cur` is
the record that opened the current window (fixing `window_end = cur.ts +
delta`), `acc` its absorbed members in reverse. -/
def windowsGo (delta : Int) : List Rec → Rec → List Rec → List (Rec × List Rec)
  | [], cur, acc => [(cur, acc.reverse)]
  | s :: rest, cur, acc =>
    if decide (s.ts ≤ cur.ts + delta) then windowsGo delta rest cur (s :: acc)
    else (cur, acc.reverse) :: windowsGo delta rest s []

/-- The windows of one group, each as opener plus later members, in the
order the group list presents them (the code does NOT sort the group by
timestamp first). -/
def windows (delta : Int) : List Rec → List (Rec × List Rec)
  | [] => []
  | r :: rest => windowsGo delta rest r []

/-- The escalation of lines 165-166: `len(window_group) >= error_threshold
and level == 'ERROR'` upgrades the displayed level to `CRITICAL`. -/
def outputLevel (threshold : Int) (level : String) (count : Nat) : String :=
  if decide ((count : Int) ≥ threshold) && level == "ERROR" then "CRITICAL" else level

/-- One Summary as lines 159-168 derive it (the rendered string of
`format_output` is determined by these fields). -/
structure Summary where
  start : Int
  end_ts : Int
  level : String
  fields : Dict
  count : Nat
deriving DecidableEq

/-- One `compacted` entry (line 169): `(start_ts, first_idx, output)`. -/
def mkEntry (threshold : Int) (level : String) (w : Rec × List Rec) : Int × Nat × Summary :=
  (w.1.ts, w.1.idx,
    ⟨w.1.ts, (w.2.getLastD w.1).ts, outputLevel threshold level (w.2.length + 1),
      w.1.fields, w.2.length + 1⟩)

/-- The `compacted` list before the final sort (lines 143-171). -/
def compact_pre (delta threshold : Int) (logs : List Rec) : List (Int × Nat × Summary) :=
  (buildGroups logs).flatMap (fun g => (windows delta g.2).map (mkEntry threshold g.1.1))

/-- The final sort key of line 173: `(start_ts, first_idx)` ascending. -/
def entryLE (a b : Int × Nat × Summary) : Bool :=
  decide (a.1 < b.1) || (a.1 == b.1 && decide (a.2.1 ≤ b.2.1))

/-- `compacted` after `compacted.sort(key=...)` (line 173). -/
def compact_core (delta threshold : Int) (logs : List Rec) : List (Int × Nat × Summary) :=
  (compact_pre delta threshold logs).mergeSort entryLE

/-- Embeds `compact_logs`: the source is the line sequence the `open`/read
either delivers (`Except.ok`) or fails to deliver (`Except.error`, the
`IOError`/`OSError` caught on line 134, which makes the generator return
before yielding anything).  The yield loop of lines 175-176 projects each
compacted entry to its Summary. -/
def compact_logs (src : Except Unit (List String)) (delta threshold : Int) :
    List Summary :=
  match src with
  | .error _ => []
  | .ok lines =>
    (compact_core delta threshold ((collect_logs lines 0).map toRec)).map
      (fun e => e.2.2)

/-- Everything a compacted entry carries except its displayed level:
`(start_ts, first_idx, start, end, fields, count)`.  Equality of these
shapes across two runs says the runs formed the same windows from the same
group members. -/
def entryShape (e : Int × Nat × Summary) : Int × Nat × Int × Int × Dict × Nat :=
  (e.1, e.2.1, e.2.2.start, e.2.2.end_ts, e.2.2.fields, e.2.2.count)

/-- Total number of records held by a group table. -/
def gsize (gs : List (GKey × List Rec)) : Nat := (gs.map (fun g => g.2.length)).sum

/-! ## Shared lemmas -/

theorem takeWhile_append_sat {α : Type} {p : α → Bool} (l1 l2 : List α)
    (h : ∀ c ∈ l1, p c = true) :
    (l1 ++ l2).takeWhile p = l1 ++ l2.takeWhile p := by
  induction l1 with
  | nil => rfl
  | cons c l1 ih =>
    have hc : p c = true := h c (List.mem_cons_self c l1)
    simp only [List.cons_append, List.takeWhile_cons, hc, if_true]
    rw [ih (fun x hx => h x (List.mem_cons_of_mem _ hx))]

theorem dropWhile_append_sat {α : Type} {p : α → Bool} (l1 l2 : List α)
    (h : ∀ c ∈ l1, p c = true) :
    (l1 ++ l2).dropWhile p = l2.dropWhile p := by
  induction l1 with
  | nil => rfl
  | cons c l1 ih =>
    have hc : p c = true := h c (List.mem_cons_self c l1)
    simp only [List.cons_append, List.dropWhile_cons, hc, if_true]
    exact ih (fun x hx => h x (List.mem_cons_of_mem _ hx))

theorem dictGet_cons (k' v' : String) (d : Dict) (k : String) :
    dictGet ((k', v') :: d) k = if k' == k then some v' else dictGet d k := by
  simp only [dictGet, List.find?_cons]
  cases h : (k' == k) <;> simp [h]

theorem dictGet_dictInsert_ne (d : Dict) (k k2 v : String) (h : k2 ≠ k) :
    dictGet (dictInsert d k v) k2 = dictGet d k2 := by
  have h' : (k == k2) = false := by
    simp only [beq_eq_false_iff_ne]; exact fun he => h he.symm
  induction d with
  | nil => simp [dictInsert, dictGet_cons, h', dictGet]
  | cons q d ih =>
    obtain ⟨qk, qv⟩ := q
    by_cases hk : qk = k
    · subst hk
      simp [dictInsert, dictGet_cons, h']
    · simp [dictInsert, hk, dictGet_cons, ih]

theorem dictGet_filter_self (d : Dict) (k : String) :
    dictGet (d.filter (fun p => p.1 ≠ k)) k = none := by
  induction d with
  | nil => rfl
  | cons q d ih =>
    by_cases hk : q.1 = k
    · rw [List.filter_cons_of_neg (by simp [hk])]
      exact ih
    · rw [List.filter_cons_of_pos (by simp [hk]), dictGet_cons]
      have hqk : (q.1 == k) = false := by simp [hk]
      rw [hqk]
      exact ih

/-! ## C8: idempotence of `normalize_user_field` on its successful outputs -/

/-- C8: if normalization of a field mapping `f` succeeds with result `N`,
then normalizing `N` again succeeds and returns `N` unchanged. -/
theorem normalize_user_field_idempotent (f N : Dict)
    (h : normalize_user_field f = some N) :
    normalize_user_field N = some N := by
  have hkey : ("user_id" : String) ≠ "user" := by decide
  unfold normalize_user_field at h
  cases hg : dictGet f "user_id" with
  | none =>
    rw [hg] at h
    dsimp only at h
    have hN : N = f := by injection h with h'; exact h'.symm
    subst hN
    unfold normalize_user_field
    rw [hg]
  | some uid =>
    rw [hg] at h
    dsimp only at h
    have hN : N = dictInsert (f.filter (fun p => p.1 ≠ "user_id")) "user" uid := by
      cases hu : dictGet f "user" with
      | none =>
        rw [hu] at h
        dsimp only at h
        injection h with h'; exact h'.symm
      | some u =>
        rw [hu] at h
        dsimp only at h
        by_cases he : u ≠ uid
        · rw [if_pos he] at h; cases h
        · rw [if_neg he] at h; injection h with h'; exact h'.symm
    have hget : dictGet N "user_id" = none := by
      rw [hN, dictGet_dictInsert_ne _ _ _ _ hkey, dictGet_filter_self]
    unfold normalize_user_field
    rw [hget]

/-- C8 witness: a mapping carrying only `user_id` normalizes to the
canonical `user` form, and that output is a fixed point. -/
theorem normalize_user_field_idempotent_witness :
    normalize_user_field [("user", "7")] = some [("user", "7")] :=
  normalize_user_field_idempotent [("user_id", "7")] [("user", "7")] (by decide)

/-! ## C9: an unreadable source yields an empty output sequence -/

/-- C9: when opening or reading the source fails (the `IOError`/`OSError`
arm of `compact_logs`), the generator produces no output at all, for any
window length and threshold. -/
theorem compact_logs_io_error_empty (e : Unit) (delta threshold : Int) :
    compact_logs (.error e) delta threshold = [] := rfl

/-! ## C10: empty keys and empty values in field tokens are accepted -/

theorem splitEq1_append (k v : String) (h : '=' ∉ k.data) :
    splitEq1 (k ++ "=" ++ v) = some (k, v) := by
  have hdata : (k ++ "=" ++ v).data = k.data ++ '=' :: v.data := by
    simp [String.data_append]
  have hsat : ∀ c ∈ k.data, (decide (c ≠ '=')) = true := by
    intro c hc
    simp only [ne_eq, decide_eq_true_eq]
    exact fun he => h (he ▸ hc)
  unfold splitEq1
  rw [hdata, dropWhile_append_sat _ _ hsat, takeWhile_append_sat _ _ hsat]
  simp [List.dropWhile_cons, List.takeWhile_cons]

/-- C10: a field token with an empty key, an empty value, or both (`=v`,
`k=`, bare `=`) passes `parse_fields`, recording the empty string as that
key or value — shown in general for any token `k=v` whose key holds no `=`,
and end-to-end for otherwise-valid lines carrying each of the three token
shapes, which all survive the full line parser. -/
theorem parse_fields_empty_key_value (k v : String) (h : '=' ∉ k.data) :
    parse_fields [k ++ "=" ++ v] = some [(k, v)] ∧
    parse_fields ["=v"] = some [("", "v")] ∧
    parse_fields ["k="] = some [("k", "")] ∧
    parse_fields ["="] = some [("", "")] ∧
    (parse_line "2025-01-01T00:00:00 INFO =v").isSome = true ∧
    (parse_line "2025-01-02T00:00:00 WARN k=").isSome = true ∧
    (parse_line "2025-01-03T00:00:00 INFO =").isSome = true := by
  refine ⟨?_, by decide, by decide, by decide, by decide, by decide, by decide⟩
  simp [parse_fields, parse_fields_go, splitEq1_append k v h, dictInsert]

/-- C10 witness: the general part at the token `=v` (empty key). -/
theorem parse_fields_empty_key_value_witness :
    parse_fields ["" ++ "=" ++ "v"] = some [("", "v")] ∧
    parse_fields ["=v"] = some [("", "v")] ∧
    parse_fields ["k="] = some [("k", "")] ∧
    parse_fields ["="] = some [("", "")] ∧
    (parse_line "2025-01-01T00:00:00 INFO =v").isSome = true ∧
    (parse_line "2025-01-02T00:00:00 WARN k=").isSome = true ∧
    (parse_line "2025-01-03T00:00:00 INFO =").isSome = true :=
  parse_fields_empty_key_value "" "v" (by decide)

/-! ## C4: what the timestamp token check actually accepts -/

/-- C4 evaluation: `datetime.fromisoformat` (and hence the line parser)
accepts a timestamp token carrying a UTC offset — the parsed value is
timezone-aware, `+05:00` = 18000 s — and accepts a bare date with no time
component; the claim (and the docstring of `parse_timestamp`) say both must
be discarded. -/
theorem parse_timestamp_accepts_offset_and_bare_date :
    (parse_timestamp "2025-01-01T00:00:00+05:00").map PyDateTime.offset =
      some (some 18000) ∧
    (parse_timestamp "2025-06-15").isSome = true ∧
    (parse_line "2025-01-01T00:00:00+05:00 ERROR k=v").isSome = true ∧
    (parse_line "2025-06-15 ERROR k=v").isSome = true := by decide

/-! ## C5: what the level token check actually accepts -/

/-- C5 counterexample: the claim says a digit in the level token causes the
line to be discarded, but `str.isupper()` ignores uncased characters, so a
line with level `ERROR2` survives parsing. -/
theorem level_with_digit_accepted :
    (parse_line "2025-01-01T00:00:00 ERROR2 a=b").isSome = true := by decide

theorem levelOk_iff (lvl : String) :
    levelOk lvl = true ↔
      (∃ c ∈ lvl.data, c.isAlpha = true) ∧
      (∀ c ∈ lvl.data, c.isAlpha = true → c.isUpper = true) := by
  unfold levelOk pyIsUpper
  constructor
  · intro h
    simp only [Bool.and_eq_true, List.any_eq_true, List.all_eq_true] at h
    obtain ⟨-, ⟨c, hc, ha⟩, h3⟩ := h
    refine ⟨⟨c, hc, ha⟩, fun c hc ha => ?_⟩
    have := h3 c hc
    rw [ha] at this
    simpa using this
  · rintro ⟨⟨c, hc, ha⟩, hall⟩
    have hne : lvl ≠ "" := by
      intro he
      rw [he] at hc
      cases hc
    simp only [Bool.and_eq_true, List.any_eq_true, List.all_eq_true]
    refine ⟨by simpa using hne, ⟨c, hc, ha⟩, fun x hx => ?_⟩
    by_cases hax : x.isAlpha = true
    · simp [hax, hall x hx hax]
    · simp [Bool.not_eq_true] at hax
      simp [hax]

/-- C5 amended: a token in the level position is accepted exactly when it
contains at least one letter and every letter in it is uppercase; non-letter
characters (digits, punctuation) never disqualify it, while a lowercase
letter — or a token with no letters at all, the empty token included —
causes the line to be discarded. -/
theorem level_acceptance_characterization (lvl : String) :
    (parse_parts ["2025-01-01T00:00:00", lvl, "a=b"]).isSome = true ↔
      (∃ c ∈ lvl.data, c.isAlpha = true) ∧
      (∀ c ∈ lvl.data, c.isAlpha = true → c.isUpper = true) := by
  rw [← levelOk_iff]
  have hts : parse_timestamp "2025-01-01T00:00:00" = some ⟨1735689600, none⟩ := by
    decide
  unfold parse_parts
  dsimp only
  rw [hts]
  cases h : levelOk lvl
  · simp [h, Option.bind]
  · have hpf : parse_fields ["a=b"] = some [("a", "b")] := by decide
    have hnf : normalize_user_field [("a", "b")] = some [("a", "b")] := by decide
    simp [h, Option.bind, hpf, hnf]

/-! ## C1: groups are NOT sorted by timestamp before windowing -/

unseal List.merge List.mergeSort in
/-- C1 evaluation: two same-group lines arriving out of timestamp order
(`00:00:10` then `00:00:00`, `dedup_window_seconds = 5`).  Sorted windowing
would open a window at `00:00:00`, find `00:00:10 > 00:00:05` outside it,
and emit two windows of one member each.  The code walks the group in parse
order instead: it opens the window at `00:00:10`, absorbs the earlier
record (`0 ≤ 10 + 5`), and emits a single window of count 2 whose recorded
end precedes its start — impossible had the members been timestamp-sorted. -/
theorem windowing_walks_parse_order :
    (compact_logs
        (.ok ["2025-01-01T00:00:10 ERROR k=v", "2025-01-01T00:00:00 ERROR k=v"])
        5 100).map
      (fun s => (s.count, decide (s.end_ts < s.start))) = [(2, true)] := by decide

/-! ## C2: a member can lie arbitrarily far from its window's start -/

unseal List.merge List.mergeSort in
/-- C2 evaluation: same group, members at `00:01:40` and `00:00:00` in that
parse order, `dedup_window_seconds = 5`.  The code emits one window whose
start is `00:01:40` and whose other member sits 100 seconds before that
start — not within 5 seconds of it, refuting the claimed window invariant. -/
theorem window_member_outside_window_span :
    (compact_logs
        (.ok ["2025-01-01T00:01:40 ERROR k=v", "2025-01-01T00:00:00 ERROR k=v"])
        5 100).map
      (fun s => (s.count, s.start - s.end_ts)) = [(2, 100)] := by decide

/-! ## C6: the escalation threshold, and its independence from grouping -/

/-- C6: a window of an `ERROR` group escalates to `CRITICAL` exactly at
`count = error_threshold` and stays `ERROR` at `count = error_threshold -
1`; and the threshold influences nothing but the displayed level — every
compacted entry's `(start_ts, first_idx, start, end, fields, count)` shape
is identical under any two thresholds, so group membership and group keys
are untouched by escalation. -/
theorem escalation_threshold_boundary (t t2 d : Int) (c c2 : Nat)
    (logs : List Rec) (h : (c : Int) = t) (h2 : (c2 : Int) = t - 1) :
    outputLevel t "ERROR" c = "CRITICAL" ∧
    outputLevel t "ERROR" c2 = "ERROR" ∧
    (compact_pre d t logs).map entryShape = (compact_pre d t2 logs).map entryShape := by
  refine ⟨?_, ?_, ?_⟩
  · have : ((c : Int) ≥ t) := by omega
    simp [outputLevel, this]
  · have : ¬((c2 : Int) ≥ t) := by omega
    simp [outputLevel, this]
  · unfold compact_pre
    rw [List.map_flatMap, List.map_flatMap]
    apply List.flatMap_congr
    intro g _
    rw [List.map_map, List.map_map]
    rfl

/-- C6 witness: threshold 2 against threshold 7 on a concrete two-record
`ERROR` group. -/
theorem escalation_threshold_boundary_witness :
    outputLevel 2 "ERROR" 2 = "CRITICAL" ∧
    outputLevel 2 "ERROR" 1 = "ERROR" ∧
    (compact_pre 5 2 [⟨0, "ERROR", [("k", "v")], 0⟩, ⟨1, "ERROR", [("k", "v")], 1⟩]).map
        entryShape =
      (compact_pre 5 7 [⟨0, "ERROR", [("k", "v")], 0⟩, ⟨1, "ERROR", [("k", "v")], 1⟩]).map
        entryShape :=
  escalation_threshold_boundary 2 7 5 2 1 _ (by decide) (by decide)

/-! ## C7: the final sort orders the whole output stream -/

theorem entryLE_trans (a b c : Int × Nat × Summary) :
    entryLE a b = true → entryLE b c = true → entryLE a c = true := by
  simp only [entryLE, Bool.or_eq_true, Bool.and_eq_true, decide_eq_true_eq, beq_iff_eq]
  omega

theorem entryLE_total (a b : Int × Nat × Summary) :
    (entryLE a b || entryLE b a) = true := by
  simp only [entryLE, Bool.or_eq_true, Bool.and_eq_true, decide_eq_true_eq, beq_iff_eq]
  omega

/-- Every compacted entry's sort key starts with its Summary's start
timestamp (line 169 stores `start_ts` in both places). -/
theorem compact_pre_start_eq (d t : Int) (logs : List Rec) :
    ∀ e ∈ compact_pre d t logs, e.1 = e.2.2.start := by
  intro e he
  simp only [compact_pre, List.mem_flatMap, List.mem_map] at he
  obtain ⟨g, -, w, -, rfl⟩ := he
  rfl

/-- C7: the compacted list after line 173's sort is ordered by
`(start_ts, first_idx)` lexicographically ascending, and hence the emitted
Summary stream (which line 175 yields in that order) has non-decreasing
window start timestamps across all groups. -/
theorem compacted_globally_sorted (d t : Int) (logs : List Rec) (lines : List String) :
    List.Pairwise (fun a b => a.1 < b.1 ∨ (a.1 = b.1 ∧ a.2.1 ≤ b.2.1))
        (compact_core d t logs) ∧
    List.Pairwise (fun s1 s2 => s1.start ≤ s2.start) (compact_logs (.ok lines) d t) := by
  constructor
  · refine (List.sorted_mergeSort entryLE_trans entryLE_total (compact_pre d t logs)).imp ?_
    intro a b hab
    simpa only [entryLE, Bool.or_eq_true, Bool.and_eq_true, decide_eq_true_eq,
      beq_iff_eq] using hab
  · unfold compact_logs compact_core
    rw [List.pairwise_map]
    refine List.Pairwise.imp_of_mem ?_
      (List.sorted_mergeSort entryLE_trans entryLE_total
        (compact_pre d t ((collect_logs lines 0).map toRec)))
    intro a b ha hb hab
    have ha' := compact_pre_start_eq d t _ a (List.mem_mergeSort.mp ha)
    have hb' := compact_pre_start_eq d t _ b (List.mem_mergeSort.mp hb)
    simp only [entryLE, Bool.or_eq_true, Bool.and_eq_true, decide_eq_true_eq,
      beq_iff_eq] at hab
    omega

/-! ## C3: conservation of counts -/

theorem windowsGo_counts_sum (delta : Int) (rest : List Rec) :
    ∀ (cur : Rec) (acc : List Rec),
      ((windowsGo delta rest cur acc).map (fun w => w.2.length + 1)).sum
        = rest.length + acc.length + 1 := by
  induction rest with
  | nil => intro cur acc; simp [windowsGo]
  | cons s rest ih =>
    intro cur acc
    unfold windowsGo
    cases h : decide (s.ts ≤ cur.ts + delta)
    · simp only [Bool.false_eq_true, if_false, List.map_cons, List.sum_cons, ih]
      simp
      omega
    · simp only [if_true, ih]
      simp
      omega

theorem windows_counts_sum (delta : Int) (l : List Rec) :
    ((windows delta l).map (fun w => w.2.length + 1)).sum = l.length := by
  cases l with
  | nil => rfl
  | cons r rest => simpa using windowsGo_counts_sum delta rest r []

theorem gsize_addToGroups (gs : List (GKey × List Rec)) (k : GKey) (r : Rec) :
    gsize (addToGroups gs k r) = gsize gs + 1 := by
  induction gs with
  | nil => simp [addToGroups, gsize]
  | cons g gs ih =>
    obtain ⟨k', rs⟩ := g
    by_cases h : k' = k
    · simp [addToGroups, h, gsize]
      omega
    · simp only [gsize, List.map_cons, List.sum_cons] at ih ⊢
      simp [addToGroups, h, ih]
      omega

theorem gsize_foldl (logs : List Rec) :
    ∀ gs,
      gsize (logs.foldl
        (fun gs r => addToGroups gs (make_group_key r.level r.fields) r) gs)
        = gsize gs + logs.length := by
  induction logs with
  | nil => intro gs; simp
  | cons r logs ih =>
    intro gs
    simp only [List.foldl_cons]
    rw [ih, gsize_addToGroups]
    simp
    omega

/-- The grouping pass loses and duplicates nothing: the group table holds
exactly the input records. -/
theorem gsize_buildGroups (logs : List Rec) : gsize (buildGroups logs) = logs.length := by
  unfold buildGroups
  rw [gsize_foldl]
  simp [gsize]

theorem counts_sum_flatMap (d t : Int) (gs : List (GKey × List Rec)) :
    ((gs.flatMap (fun g => (windows d g.2).map (mkEntry t g.1.1))).map
        (fun e => e.2.2.count)).sum = gsize gs := by
  induction gs with
  | nil => rfl
  | cons g gs ih =>
    simp only [List.flatMap_cons, List.map_append, List.sum_append, ih]
    rw [List.map_map]
    have hc : ((fun e : Int × Nat × Summary => e.2.2.count) ∘ mkEntry t g.1.1)
        = fun w => w.2.length + 1 := rfl
    rw [hc, windows_counts_sum]
    simp [gsize]

/-- C3: the sum of the `count` fields over all emitted Summaries equals the
number of input lines that survive parsing and normalization (every
surviving record lands in exactly one window; no window is empty or counts
a record twice).  The all-naive-timestamp hypothesis confines the statement
to inputs on which CPython's `datetime` comparisons are defined. -/
theorem conservation_of_counts (lines : List String) (d t : Int)
    (h : ∀ p ∈ collect_logs lines 0, p.1.dt.offset = none) :
    ((compact_logs (.ok lines) d t).map Summary.count).sum
      = (collect_logs lines 0).length := by
  unfold compact_logs compact_core
  rw [List.map_map]
  have hperm :=
    (List.mergeSort_perm (compact_pre d t ((collect_logs lines 0).map toRec)) entryLE).map
      (fun e : Int × Nat × Summary => e.2.2.count)
  have hsum := hperm.sum_eq
  have hcomp : (Summary.count ∘ fun e : Int × Nat × Summary => e.2.2)
      = fun e : Int × Nat × Summary => e.2.2.count := rfl
  rw [hcomp, hsum]
  unfold compact_pre
  rw [counts_sum_flatMap, gsize_buildGroups, List.length_map]

/-- C3 witness: two surviving lines plus one discarded line — the counts
sum to 2, the number of survivors. -/
theorem conservation_of_counts_witness :
    ((compact_logs
        (.ok ["2025-01-01T00:00:00 INFO a=1", "2025-01-01T00:00:01 INFO a=1", "bogus"])
        5 3).map Summary.count).sum
      = (collect_logs
          ["2025-01-01T00:00:00 INFO a=1", "2025-01-01T00:00:01 INFO a=1", "bogus"]
          0).length :=
  conservation_of_counts
    ["2025-01-01T00:00:00 INFO a=1", "2025-01-01T00:00:01 INFO a=1", "bogus"] 5 3
    (by decide)

end LogCompactor
